import Mathlib

/-!
# MindSight backend — verification of the diagnosis/report pipeline

Shallow embedding of the MindSight Express backend slice specified in
`spec.md`: the upload handler (multer configuration), the classifier
invocation bridge (`services/cnnPredictor.js`), the storage adapter
(`services/database.js`), the report renderers
(`services/reportGenerator.js`) and the HTTP route handlers
(`routes/diagnosis.js`, `routes/auth.js`).

Conventions of the embedding:
* JavaScript strings are embedded as `String` where they are only compared,
  and as `List Char` (`Str`) where their structure (concatenation,
  containment, parsing) matters.
* JavaScript numbers that hold classifier confidences are embedded as `ℚ`
  (the claims are about order and formatting, not float rounding).
* Timestamps (`Date.now()`, `created_at`) are embedded as `ℕ`.
* Fallible external effects (the Python subprocess, disk writes) enter the
  handlers as explicit `Except` parameters; persistence is explicit state
  passing over a record of table contents.
* JS truthiness on optional strings/numbers (`x || d`) is embedded by
  `strOr` / `numOr`: `none` (absent) and `some ""` / `some 0` are falsy.
-/

namespace MindSight

/-- Character-list strings, used where string structure matters. -/
abbrev Str := List Char

/-- JS `a || d` for an optional string: absent and `""` are falsy. -/
def strOr (a : Option String) (d : String) : String :=
  match a with
  | none => d
  | some s => if s = "" then d else s

/-- JS `a || d` for an optional numeric field: absent and `0` are falsy. -/
def numOr (a : Option ℚ) (d : ℚ) : ℚ :=
  match a with
  | none => d
  | some x => if x = 0 then d else x

/-- JS truthiness of an optional string (used by `if (diagnosis.notes)`). -/
def strTruthy (a : Option String) : Bool :=
  match a with
  | none => false
  | some s => s ≠ ""

/-- JS `x || null` applied to an optional string field before an SQL
insert (`services/database.js`, `createDiagnosis`): `""` becomes null. -/
def jsNull (a : Option String) : Option String :=
  match a with
  | none => none
  | some s => if s = "" then none else some s

/-! ## Classifier invocation bridge (`services/cnnPredictor.js`) -/

/-- One JSON object emitted by the Python subprocess, as the bridge reads
it (`mode: 'json'`).  Absent fields are `none`. -/
structure RawResult where
  predicted_class : Option String
  confidence : Option ℚ
  probability : Option ℚ
  all_predictions : Option (List (String × ℚ))
  category : Option String
  top_k : Option (List (String × ℚ))
deriving DecidableEq

/-- A JavaScript value as it flows out of the category lookup: either a
string, or a non-string member inherited from `Object.prototype`
(recorded by the key that was read — e.g. the `toString` function, or
the prototype object itself for `__proto__`). -/
inductive JsValue where
  | str (s : String)
  | inherited (key : String)
deriving DecidableEq

/-- The property names every plain object literal inherits from
`Object.prototype`; reading one of them yields the inherited member —
a truthy function (or, for `__proto__`, the prototype object) — rather
than `undefined`. -/
def objectPrototypeKeys : List String :=
  ["constructor", "hasOwnProperty", "isPrototypeOf", "propertyIsEnumerable",
   "toLocaleString", "toString", "valueOf", "__defineGetter__",
   "__defineSetter__", "__lookupGetter__", "__lookupSetter__", "__proto__"]

/-- `table[key]` with JavaScript property-access semantics on an object
literal: an own entry's value; otherwise the inherited
`Object.prototype` member for keys such as `"toString"`; otherwise
`undefined` (`none`). -/
def objectGet (table : List (String × String)) (key : String) :
    Option JsValue :=
  match table.lookup key with
  | some v => some (.str v)
  | none =>
    if key ∈ objectPrototypeKeys then some (.inherited key) else none

/-- JS `a || d` where `a` is an optional string and the default is a
JavaScript value: absent and `""` are falsy. -/
def jsValOr (a : Option String) (d : JsValue) : JsValue :=
  match a with
  | none => d
  | some s => if s = "" then d else .str s

/-- The structured prediction `predictImage` resolves with.  The
`diagnosis_type` is a JavaScript value: the category lookup can leak a
non-string inherited `Object.prototype` member. -/
structure Prediction where
  result : String
  confidence : ℚ
  all_predictions : List (String × ℚ)
  diagnosis_type : JsValue
  details_top : List (String × ℚ)
deriving DecidableEq

/-- The inline literal table of `getCategoryByClass`
(`services/cnnPredictor.js` lines 46–62). -/
def categories : List (String × String) :=
  [("肺出血", "肺部病变"),
   ("肺水肿", "肺部病变"),
   ("肺血栓", "肺部病变"),
   ("肺炎", "肺部病变"),
   ("冠心病", "心血管病变"),
   ("心肌纤维断裂", "心血管病变"),
   ("心肌炎", "心血管病变"),
   ("脑出血", "脑部病变"),
   ("脑水肿", "脑部病变"),
   ("脑血管畸形", "脑部病变"),
   ("脑蛛网膜下腔淤血", "脑部病变"),
   ("肝脂肪变性", "肝脏病变"),
   ("脾小动脉玻璃样改变", "脾脏病变"),
   ("肾小球纤维化", "肾脏病变"),
   ("胰腺炎", "胰腺病变")]

/-- `getCategoryByClass`: the object-literal read
`categories[className] || '其他病变'` with JavaScript semantics.  An own
entry's (truthy) value is returned; a key naming an inherited
`Object.prototype` member returns that member, which is truthy and so
short-circuits the `||`; only `undefined` (and an empty own value)
falls back to the default category. -/
def getCategoryByClass (className : String) : JsValue :=
  match objectGet categories className with
  | some (.str s) => if s = "" then .str "其他病变" else .str s
  | some v => v
  | none => .str "其他病变"

/-- `predictImage` (`services/cnnPredictor.js` lines 6–43).  The whole
subprocess run is the `outcome` argument: `.error` is the `err` callback
branch, `.ok results` the JSON lines collected from stdout.  The bridge
reads `results[results.length - 1]` and rejects when that element is
missing or its `predicted_class` is falsy. -/
def predictImage (outcome : Except String (List RawResult)) :
    Except String Prediction :=
  match outcome with
  | .error _ => .error "模型预测失败，请确保CNN模型已正确配置"
  | .ok results =>
    match results.getLast? with
    | none => .error "模型返回结果无效"
    | some r =>
      match r.predicted_class with
      | none => .error "模型返回结果无效"
      | some pc =>
        if pc = "" then .error "模型返回结果无效"
        else
          .ok { result := pc
                confidence := numOr r.confidence (numOr r.probability 0)
                all_predictions := r.all_predictions.getD []
                diagnosis_type := jsValOr r.category (getCategoryByClass pc)
                details_top := r.top_k.getD [] }

/-- Modelled from the spec: the repository's classifier script
(`组织病理CNN/main.py`) is not among the provided backend sources; per
§4.2 of the spec its result shape carries a confidence (and alternative
probabilities) in `[0,1]`.  This predicate states that contract for one
raw subprocess result. -/
def SpecClassifierOutput (r : RawResult) : Prop :=
  (∀ q, r.confidence = some q → 0 ≤ q ∧ q ≤ 1) ∧
  (∀ q, r.probability = some q → 0 ≤ q ∧ q ≤ 1)

/-! ## Storage adapter (`services/database.js`)

Tables are embedded as lists of rows; `INTEGER PRIMARY KEY AUTOINCREMENT`
ids are modelled by `length + 1` (adequate: no delete operation exists,
and no claim depends on the exact id values). -/

/-- A row of the `users` table (the password hash plays no role in any
claim and is omitted). -/
structure UserRow where
  id : Nat
  username : String
  name : String
  role : String
deriving DecidableEq

/-- A row of the `diagnoses` table.  `prediction_result` holds the
serialized (`JSON.stringify`) classifier label, as stored by
`createDiagnosis`. -/
structure DiagnosisRow where
  id : Nat
  user_id : Nat
  patient_name : Option String
  patient_id : Option String
  image_path : String
  prediction_result : Str
  confidence : ℚ
  diagnosis_type : Option String
  notes : Option String
  created_at : Nat
deriving DecidableEq

/-- A row of the `reports` table. -/
structure ReportRow where
  id : Nat
  diagnosis_id : Nat
  user_id : Nat
  report_type : String
  file_path : Str
deriving DecidableEq

/-- `ORDER BY created_at DESC`: a row sorts before another when its
creation timestamp is at least as large. -/
def byNewest (key : α → Nat) (a b : α) : Prop := key b ≤ key a

instance (key : α → Nat) : DecidableRel (byNewest key) := by
  intro a b; unfold byNewest; infer_instance

instance (key : α → Nat) : IsTotal α (byNewest key) :=
  ⟨fun a b => Nat.le_total (key b) (key a)⟩

instance (key : α → Nat) : IsTrans α (byNewest key) :=
  ⟨fun _ _ _ h1 h2 => Nat.le_trans h2 h1⟩

/-- Sort rows newest-first (the embedding of `ORDER BY created_at DESC`;
SQLite guarantees only the ordering, which is what the theorems use). -/
def sortNewest (key : α → Nat) (l : List α) : List α :=
  List.insertionSort (byNewest key) l

/-- `getDiagnoses(userId, role)` (`services/database.js` lines 256–268).
The admin branch is the inner `JOIN users u ON d.user_id = u.id`
returning `d.*, u.name as doctor_name`; the other branch filters on
`user_id = ?`.  Join rows carry `some doctor_name`, plain rows `none`. -/
def getDiagnoses (userId : Nat) (role : String) (diagnoses : List DiagnosisRow)
    (users : List UserRow) : List (DiagnosisRow × Option String) :=
  if role = "admin" then
    sortNewest (fun p => p.1.created_at)
      (diagnoses.filterMap (fun d =>
        (users.find? (fun u => u.id == d.user_id)).map (fun u => (d, some u.name))))
  else
    sortNewest (fun p => p.1.created_at)
      ((diagnoses.filter (fun d => d.user_id == userId)).map (fun d => (d, none)))

/-- `getDiagnosisById(id)`: `SELECT * FROM diagnoses WHERE id = ?`. -/
def getDiagnosisById (id : Nat) (diagnoses : List DiagnosisRow) :
    Option DiagnosisRow :=
  diagnoses.find? (fun d => d.id == id)

/-! ## JSON string serialization

`createDiagnosis` stores `JSON.stringify(data.prediction_result)` and the
report route reads it back with `JSON.parse`.  The stored value is always
a JSON string, so only the string fragment of JSON is embedded: the
escaping `JSON.stringify` performs and the unescaping `JSON.parse`
performs.  (JS operates on UTF-16; the embedding covers strings of
Unicode scalar values, which is every string the backend handles.) -/

/-- Lower-case hexadecimal digit (used by `JSON.stringify` for control
characters). -/
def hexDigit (n : Nat) : Char :=
  if n = 0 then '0' else if n = 1 then '1' else if n = 2 then '2'
  else if n = 3 then '3' else if n = 4 then '4' else if n = 5 then '5'
  else if n = 6 then '6' else if n = 7 then '7' else if n = 8 then '8'
  else if n = 9 then '9' else if n = 10 then 'a' else if n = 11 then 'b'
  else if n = 12 then 'c' else if n = 13 then 'd' else if n = 14 then 'e'
  else 'f'

/-- Value of one hexadecimal digit, as `JSON.parse` reads `\uXXXX`
escapes (upper- or lower-case). -/
def hexVal? (c : Char) : Option Nat :=
  if c = '0' then some 0 else if c = '1' then some 1
  else if c = '2' then some 2 else if c = '3' then some 3
  else if c = '4' then some 4 else if c = '5' then some 5
  else if c = '6' then some 6 else if c = '7' then some 7
  else if c = '8' then some 8 else if c = '9' then some 9
  else if c = 'a' ∨ c = 'A' then some 10 else if c = 'b' ∨ c = 'B' then some 11
  else if c = 'c' ∨ c = 'C' then some 12 else if c = 'd' ∨ c = 'D' then some 13
  else if c = 'e' ∨ c = 'E' then some 14 else if c = 'f' ∨ c = 'F' then some 15
  else none

/-- How `JSON.stringify` emits one character of a string: `"` and `\`
are escaped, the named control escapes are used where they exist, the
remaining control characters become `\u00XX`, everything else is copied
verbatim. -/
def encodeChar (c : Char) : Str :=
  if c = '"' then ['\\', '"']
  else if c = '\\' then ['\\', '\\']
  else if c = '\x08' then ['\\', 'b']
  else if c = '\x0c' then ['\\', 'f']
  else if c = '\n' then ['\\', 'n']
  else if c = '\r' then ['\\', 'r']
  else if c = '\t' then ['\\', 't']
  else if c.toNat < 0x20 then
    ['\\', 'u', '0', '0', hexDigit (c.toNat / 16), hexDigit (c.toNat % 16)]
  else [c]

/-- `JSON.stringify(s)` for a string `s`: a quoted, escaped JSON text. -/
def jsonStringify (s : String) : Str :=
  '"' :: s.data.flatMap encodeChar ++ ['"']

/-- Prepend a decoded character to a string-body parse result. -/
def consR (ch : Char) (o : Option (Str × Str)) : Option (Str × Str) :=
  o.map (fun p => (ch :: p.1, p.2))

/-- The named escapes `JSON.parse` understands after a backslash (`u` is
handled separately). -/
def escChar? (e : Char) : Option Char :=
  if e = '"' then some '"'
  else if e = '\\' then some '\\'
  else if e = '/' then some '/'
  else if e = 'b' then some '\x08'
  else if e = 'f' then some '\x0c'
  else if e = 'n' then some '\n'
  else if e = 'r' then some '\r'
  else if e = 't' then some '\t'
  else none

/-- The body of a JSON string as `JSON.parse` reads it after the opening
quote: returns the decoded characters and the input remaining after the
closing quote.  Unescaped control characters and invalid escapes are
rejected, as in JSON. -/
def decodeBody : Str → Option (Str × Str)
  | [] => none
  | c :: rest =>
    if c = '"' then some ([], rest)
    else if c = '\\' then
      match rest with
      | [] => none
      | e :: rest2 =>
        if e = 'u' then
          match rest2 with
          | h1 :: h2 :: h3 :: h4 :: rest3 =>
            match hexVal? h1, hexVal? h2, hexVal? h3, hexVal? h4 with
            | some a, some b, some c2, some d2 =>
              consR (Char.ofNat (((a * 16 + b) * 16 + c2) * 16 + d2))
                (decodeBody rest3)
            | _, _, _, _ => none
          | _ => none
        else
          match escChar? e with
          | some ch => consR ch (decodeBody rest2)
          | none => none
    else if c.toNat < 0x20 then none
    else consR c (decodeBody rest)

/-- `JSON.parse(t)` for a serialized-string text `t`: an opening quote, a
string body, a closing quote, nothing after. -/
def jsonParseString (t : Str) : Option String :=
  match t with
  | c :: rest =>
    if c = '"' then
      match decodeBody rest with
      | some (u, []) => some (String.mk u)
      | _ => none
    else none
  | [] => none

/-! ## Decimal rendering of numbers

JS template literals render the integer ids and `Date.now()` values in
decimal; `natStr` is that rendering. -/

/-- One decimal digit character. -/
def digitChar (d : Nat) : Char :=
  if d = 0 then '0' else if d = 1 then '1' else if d = 2 then '2'
  else if d = 3 then '3' else if d = 4 then '4' else if d = 5 then '5'
  else if d = 6 then '6' else if d = 7 then '7' else if d = 8 then '8'
  else '9'

/-- Decimal rendering of a natural number (no sign, no leading zeros). -/
def natStr (n : Nat) : Str :=
  if _h : n < 10 then [digitChar n]
  else natStr (n / 10) ++ [digitChar (n % 10)]
decreasing_by exact Nat.div_lt_self (by omega) (by omega)

/-- Value of a decimal digit character. -/
def digitVal (c : Char) : Nat := c.toNat - 48

/-- Read a digit string back as a number (left fold, most significant
digit first). -/
def digitsVal (l : Str) : Nat := l.foldl (fun a c => 10 * a + digitVal c) 0

/-! ## Report renderer (`services/reportGenerator.js`) -/

/-- The two members of the report-kind enumeration. -/
inductive ReportKind where
  | pdf
  | word
deriving DecidableEq

/-- File extension chosen by each generator. -/
def kindExt (k : ReportKind) : Str :=
  match k with
  | .pdf => ".pdf".data
  | .word => ".docx".data

/-- The output file name of one generation:
`` `诊断报告_${diagnosis.id}_${Date.now()}` `` plus the kind's extension
(`reportGenerator.js` lines 14 and 62). -/
def reportFilenameRaw (k : ReportKind) (diagId : Nat) (now : Nat) : Str :=
  "诊断报告_".data ++ natStr diagId ++ '_' :: (natStr now ++ kindExt k)

/-- One report-generation event.  `seq` distinguishes distinct events
that happen to share kind, diagnosis id and `Date.now()` value; the file
name does not depend on it. -/
structure GenEvent where
  seq : Nat
  kind : ReportKind
  diagId : Nat
  now : Nat
deriving DecidableEq

/-- File name written by a generation event. -/
def reportFilename (e : GenEvent) : Str :=
  reportFilenameRaw e.kind e.diagId e.now

/-- `x.toFixed(2)` for a non-negative value: round to hundredths
(half away from zero, as for the values at issue here), then print
`integer part`, `.`, two digits. -/
def toFixed2 (x : ℚ) : Str :=
  let n : Nat := (⌊x * 100 + 1 / 2⌋).toNat
  natStr (n / 100) ++ '.' :: [digitChar (n % 100 / 10), digitChar (n % 100 % 10)]

/-- The confidence text both renderers embed:
`` `${(diagnosis.confidence * 100).toFixed(2)}%` ``. -/
def confidenceText (confidence : ℚ) : Str :=
  toFixed2 (confidence * 100) ++ "%".data

/-- Styling of one emitted text item, as the source distinguishes them:
the PDF title is the 20pt centered line and section headings are the
16pt underlined lines; in the Word renderer the title is `HEADING_1`,
section headings are `HEADING_2`, metadata lines are the runs of the
second paragraph, and the footer is the final centered paragraph. -/
inductive Style where
  | title
  | meta
  | heading
  | body
  | footer
deriving DecidableEq

/-- One emitted text item. -/
structure Item where
  style : Style
  text : Str
deriving DecidableEq

/-- The fields of the (already deserialized) diagnosis record that the
renderers read, plus the requesting user's display name is passed
separately. -/
structure ReportInput where
  id : Nat
  created_at : Nat
  patient_name : Option String
  patient_id : Option String
  diagnosis_type : Option String
  prediction_result : String
  confidence : ℚ
  notes : Option String
deriving DecidableEq

/-- The text items `generatePDFReport` writes, in order
(`reportGenerator.js` lines 22–52).  `fmtDate` stands for
`new Date(...).toLocaleDateString()`, which both renderers call on
`diagnosis.created_at`. -/
def pdfTextItems (d : ReportInput) (userName : String) (fmtDate : Nat → Str) :
    List Item :=
  [⟨.title, "司法鉴定诊断报告".data⟩,
   ⟨.meta, "报告编号: ".data ++ natStr d.id⟩,
   ⟨.meta, "生成日期: ".data ++ fmtDate d.created_at⟩,
   ⟨.meta, "鉴定医师: ".data ++ userName.data⟩,
   ⟨.heading, "患者信息".data⟩,
   ⟨.body, "患者姓名: ".data ++ (strOr d.patient_name "未填写").data⟩,
   ⟨.body, "患者ID: ".data ++ (strOr d.patient_id "未填写").data⟩,
   ⟨.heading, "诊断结果".data⟩,
   ⟨.body, "诊断类型: ".data ++ (strOr d.diagnosis_type "综合诊断").data⟩,
   ⟨.body, "主要诊断: ".data ++ d.prediction_result.data⟩,
   ⟨.body, "置信度: ".data ++ confidenceText d.confidence⟩] ++
  (if strTruthy d.notes then
    [⟨.heading, "医师备注".data⟩,
     ⟨.body, (strOr d.notes "").data⟩]
   else []) ++
  [⟨.heading, "诊断依据".data⟩,
   ⟨.body, "基于深度学习CNN模型对病理切片图像进行分析，辅助法医进行初步诊断。".data⟩,
   ⟨.body, "诊断结果仅供参考，最终诊断需由专业法医确认。".data⟩,
   ⟨.footer, "本报告由司法鉴定辅助系统自动生成".data⟩]

/-- The text items `generateWordReport` emits, in order
(`reportGenerator.js` lines 69–110); the `医师备注` section is emitted
unconditionally with `diagnosis.notes || '无'`, and the metadata
paragraph's spacer runs are kept as `meta` items. -/
def wordTextItems (d : ReportInput) (userName : String) (fmtDate : Nat → Str) :
    List Item :=
  [⟨.title, "司法鉴定诊断报告".data⟩,
   ⟨.meta, "报告编号: ".data ++ natStr d.id⟩,
   ⟨.meta, "          ".data⟩,
   ⟨.meta, "生成日期: ".data ++ fmtDate d.created_at⟩,
   ⟨.meta, "          ".data⟩,
   ⟨.meta, "鉴定医师: ".data ++ userName.data⟩,
   ⟨.heading, "患者信息".data⟩,
   ⟨.body, "患者姓名: ".data ++ (strOr d.patient_name "未填写").data⟩,
   ⟨.body, "患者ID: ".data ++ (strOr d.patient_id "未填写").data⟩,
   ⟨.heading, "诊断结果".data⟩,
   ⟨.body, "诊断类型: ".data ++ (strOr d.diagnosis_type "综合诊断").data⟩,
   ⟨.body, "主要诊断: ".data ++ d.prediction_result.data⟩,
   ⟨.body, "置信度: ".data ++ confidenceText d.confidence⟩,
   ⟨.heading, "医师备注".data⟩,
   ⟨.body, (strOr d.notes "无").data⟩,
   ⟨.heading, "诊断依据".data⟩,
   ⟨.body, "基于深度学习CNN模型对病理切片图像进行分析，辅助法医进行初步诊断。".data⟩,
   ⟨.body, "诊断结果仅供参考，最终诊断需由专业法医确认。".data⟩,
   ⟨.footer, "本报告由司法鉴定辅助系统自动生成".data⟩]

/-- The section-heading texts of a rendered document, in order. -/
def sectionHeadings (items : List Item) : List Str :=
  (items.filter (fun it => it.style == Style.heading)).map Item.text

/-! ## Upload handler (`routes/diagnosis.js` lines 12–39) -/

/-- Substring containment on character lists (what an unanchored regex
literal match performs). -/
def strContains (s sub : Str) : Bool :=
  match s with
  | [] => sub.isEmpty
  | _ :: t => sub.isPrefixOf s || strContains t sub

/-- `path.extname`: the suffix from the last `.` of the name, empty when
there is no dot or the only dot starts the name. -/
def extname (name : Str) : Str :=
  let tail := name.reverse.takeWhile (fun c => c ≠ '.')
  if tail.length + 1 < name.length then '.' :: tail.reverse else []

/-- The alternatives of the regex literal `/jpeg|jpg|png|tiff|bmp/`. -/
def allowedTokens : List Str :=
  ["jpeg".data, "jpg".data, "png".data, "tiff".data, "bmp".data]

/-- `allowedTypes.test(s)`: the unanchored regex matches anywhere in the
string. -/
def allowedTest (s : Str) : Bool :=
  allowedTokens.any (fun tok => strContains s tok)

/-- `fileFilter`: the extension (lower-cased) and the MIME type must each
match the regex. -/
def fileFilterOk (originalname mimetype : Str) : Bool :=
  allowedTest ((extname originalname).map Char.toLower) && allowedTest mimetype

/-- `limits: { fileSize: 10 * 1024 * 1024 }`. -/
def maxFileSize : Nat := 10 * 1024 * 1024

/-- A file clears the upload middleware iff `fileFilter` accepts it and
it is within the multer size limit. -/
def acceptUpload (originalname mimetype : Str) (size : Nat) : Bool :=
  fileFilterOk originalname mimetype && decide (size ≤ maxFileSize)

/-- The stored file name: `` `${uuidv4()}${ext}` `` with
`ext = path.extname(file.originalname)`. -/
def storedName (uuid : Str) (originalname : Str) : Str :=
  uuid ++ extname originalname

/-- The upload directory after one upload attempt: the stored file is
added exactly when the middleware accepts the file (multer removes the
staged file when the filter rejects or the size limit aborts). -/
def uploadStep (dir : List Str) (uuid originalname mimetype : Str) (size : Nat) :
    List Str :=
  if acceptUpload originalname mimetype size then
    dir ++ [storedName uuid originalname]
  else dir

/-- The fixed raster-image set the spec names for extensions
({JPEG, PNG, TIFF, BMP}, with both spellings of JPEG). -/
def specAllowedExts : List Str :=
  [".jpeg".data, ".jpg".data, ".png".data, ".tiff".data, ".bmp".data]

/-- The fixed raster-image set the spec names for MIME types. -/
def specAllowedMimes : List Str :=
  ["image/jpeg".data, "image/jpg".data, "image/png".data,
   "image/tiff".data, "image/bmp".data]

/-! ## Route handlers (`routes/diagnosis.js`, `routes/auth.js`) -/

/-- The persisted backend state the handlers touch: the three tables and
the generated report files (by name). -/
structure St where
  users : List UserRow
  diagnoses : List DiagnosisRow
  reports : List ReportRow
  reportFiles : List Str
deriving DecidableEq

/-- Input of `createDiagnosis(data)` as built by the predict route. -/
structure DiagnosisData where
  user_id : Nat
  patient_name : Option String
  patient_id : Option String
  image_path : String
  prediction_result : String
  confidence : ℚ
  diagnosis_type : Option String
  notes : Option String

/-- `createDiagnosis` (`services/database.js` lines 239–254): one INSERT;
optional text fields go through `|| null`, the prediction result through
`JSON.stringify`. -/
def createDiagnosis (st : St) (data : DiagnosisData) (now : Nat) : St :=
  { st with diagnoses := st.diagnoses ++
      [{ id := st.diagnoses.length + 1
         user_id := data.user_id
         patient_name := jsNull data.patient_name
         patient_id := jsNull data.patient_id
         image_path := data.image_path
         prediction_result := jsonStringify data.prediction_result
         confidence := data.confidence
         diagnosis_type := jsNull data.diagnosis_type
         notes := jsNull data.notes
         created_at := now }] }

/-- `createReport(diagnosisId, userId, reportType, filePath)`. -/
def createReport (st : St) (diagnosisId userId : Nat) (reportType : String)
    (filePath : Str) : St :=
  { st with reports := st.reports ++
      [{ id := st.reports.length + 1
         diagnosis_id := diagnosisId
         user_id := userId
         report_type := reportType
         file_path := filePath }] }

/-- The staged upload as the predict route sees it (`req.file`). -/
structure StagedFile where
  path : String

/-- `POST /diagnosis/predict` (`routes/diagnosis.js` lines 41–76).
Returns the HTTP status and the state after the request.  `raw` is the
subprocess outcome consumed by `predictImage`; a rejected promise is
caught and mapped to 500.  When `prediction.diagnosis_type` is a
non-string JavaScript value (an inherited `Object.prototype` member
leaking out of `getCategoryByClass`), the better-sqlite3 parameter
binding inside `createDiagnosis` throws a `TypeError`; the route's
`catch` maps that to 500 with nothing inserted — the embedding performs
that binding check at the call site. -/
def predictRoute (st : St) (userId : Nat) (file? : Option StagedFile)
    (patient_name patient_id notes : Option String) (now : Nat)
    (raw : Except String (List RawResult)) : Nat × St :=
  match file? with
  | none => (400, st)
  | some f =>
    match predictImage raw with
    | .error _ => (500, st)
    | .ok p =>
      match p.diagnosis_type with
      | .inherited _ => (500, st)
      | .str dt =>
        (200, createDiagnosis st
          { user_id := userId
            patient_name := patient_name
            patient_id := patient_id
            image_path := f.path
            prediction_result := p.result
            confidence := p.confidence
            diagnosis_type := some dt
            notes := notes } now)

/-- `POST /diagnosis/:id/report` (`routes/diagnosis.js` lines 104–141).
`gen` is the outcome of the document generation the route awaits (stream
or disk failure is the `.error` case, caught and mapped to 500); `now`
is the `Date.now()` of the generation. -/
def reportRoute (st : St) (userId : Nat) (role : String)
    (reqId : Nat) (report_type : Option String) (now : Nat)
    (gen : Except String Unit) : Nat × St :=
  match getDiagnosisById reqId st.diagnoses with
  | none => (404, st)
  | some d =>
    if d.user_id ≠ userId ∧ role ≠ "admin" then (403, st)
    else
      match jsonParseString d.prediction_result with
      | none => (500, st)
      | some _label =>
        if report_type = some "pdf" then
          match gen with
          | .error _ => (500, st)
          | .ok _ =>
            let fname := reportFilenameRaw ReportKind.pdf d.id now
            (200, createReport { st with reportFiles := st.reportFiles ++ [fname] }
              d.id userId "pdf" fname)
        else if report_type = some "word" then
          match gen with
          | .error _ => (500, st)
          | .ok _ =>
            let fname := reportFilenameRaw ReportKind.word d.id now
            (200, createReport { st with reportFiles := st.reportFiles ++ [fname] }
              d.id userId "word" fname)
        else (400, st)

/-- The JSON body of `POST /auth/register`; `none` is an absent field. -/
structure RegisterBody where
  username : Option String
  password : Option String
  name : Option String
  role : Option String

/-- `POST /auth/register` (`routes/auth.js` lines 8–44).  The role comes
from the destructuring `const { ..., role = 'forensic' } = req.body`, so
the default applies only when the field is absent; the value is inserted
unchecked.  Returns the HTTP status and the created account, if any. -/
def registerHandler (body : RegisterBody) (usernameTaken : Bool) (newId : Nat) :
    Nat × Option UserRow :=
  if ¬ strTruthy body.username ∨ ¬ strTruthy body.password ∨ ¬ strTruthy body.name
  then (400, none)
  else if usernameTaken then (400, none)
  else
    (200, some { id := newId
                 username := body.username.getD ""
                 name := body.name.getD ""
                 role := body.role.getD "forensic" })

/-- Sample user row for concrete witnesses. -/
def sampleUser : UserRow :=
  { id := 1, username := "forensic1", name := "法医一", role := "forensic" }

/-- Sample diagnosis row for concrete witnesses, shaped as
`createDiagnosis` stores rows. -/
def sampleDiagnosis : DiagnosisRow :=
  { id := 1
    user_id := 1
    patient_name := some "张三"
    patient_id := none
    image_path := "uploads/images/x.jpg"
    prediction_result := jsonStringify "肺炎"
    confidence := 87 / 100
    diagnosis_type := some "肺部病变"
    notes := none
    created_at := 100 }

/-- Sample backend state for concrete witnesses: one user, one diagnosis
record, no reports yet. -/
def sampleSt : St :=
  { users := [sampleUser]
    diagnoses := [sampleDiagnosis]
    reports := []
    reportFiles := [] }

/-- Empty backend state for concrete witnesses. -/
def emptySt : St :=
  { users := [], diagnoses := [], reports := [], reportFiles := [] }

/-- Sample renderer input without a note. -/
def sampleReportInput : ReportInput :=
  { id := 1
    created_at := 100
    patient_name := some "张三"
    patient_id := none
    diagnosis_type := some "肺部病变"
    prediction_result := "肺炎"
    confidence := 87 / 100
    notes := none }

/-- Sample renderer input with a note. -/
def sampleReportInputNoted : ReportInput :=
  { sampleReportInput with notes := some "切片染色良好" }

/-! ## Helper lemmas -/

/-- `numOr` stays in `[0,1]` when its inputs do. -/
theorem numOr_mem_unit {a : Option ℚ} {d : ℚ}
    (ha : ∀ q, a = some q → 0 ≤ q ∧ q ≤ 1) (hd : 0 ≤ d ∧ d ≤ 1) :
    0 ≤ numOr a d ∧ numOr a d ≤ 1 := by
  cases a with
  | none => simpa [numOr] using hd
  | some x =>
    by_cases hx : x = 0
    · simpa [numOr, hx] using hd
    · simpa [numOr, hx] using ha x rfl

/-- A key absent from every pair of an association list looks up to
`none`. -/
theorem lookup_eq_none_of_forall {l : List (String × String)} {k : String}
    (h : ∀ pr ∈ l, pr.1 ≠ k) : l.lookup k = none := by
  induction l with
  | nil => rfl
  | cons p t ih =>
    have hp : p.1 ≠ k := h p (List.mem_cons_self p t)
    have hk : (k == p.1) = false := by
      simp only [beq_eq_false_iff_ne, ne_eq]
      exact fun he => hp he.symm
    simp only [List.lookup, hk]
    exact ih (fun pr hpr => h pr (List.mem_cons_of_mem p hpr))

/-! ## C3 — confidence of a successful prediction lies in [0,1] -/

/-- C3: for every successful classifier invocation whose raw results obey
the spec's result-shape contract (`SpecClassifierOutput`, modelled from
the spec since `组织病理CNN/main.py` is not among the given sources), the
confidence `predictImage` resolves with lies in the closed interval
`[0,1]`; in particular the `|| 0` fallback keeps it there when the raw
fields are absent. -/
theorem predictImage_confidence_in_unit_interval
    (rs : List RawResult) (p : Prediction)
    (hspec : ∀ r ∈ rs, SpecClassifierOutput r)
    (hok : predictImage (Except.ok rs) = Except.ok p) :
    0 ≤ p.confidence ∧ p.confidence ≤ 1 := by
  cases hlast : rs.getLast? with
  | none =>
    simp only [predictImage, hlast] at hok
    exact Except.noConfusion hok
  | some r =>
    simp only [predictImage, hlast] at hok
    have hr : r ∈ rs := List.mem_of_mem_getLast? hlast
    obtain ⟨hc, hpr⟩ := hspec r hr
    cases hpc : r.predicted_class with
    | none =>
      simp only [hpc] at hok
      exact Except.noConfusion hok
    | some pc =>
      simp only [hpc] at hok
      by_cases hemp : pc = ""
      · simp only [if_pos hemp] at hok
        exact Except.noConfusion hok
      · simp only [if_neg hemp, Except.ok.injEq] at hok
        have hconf : p.confidence = numOr r.confidence (numOr r.probability 0) := by
          rw [← hok]
        rw [hconf]
        exact numOr_mem_unit hc (numOr_mem_unit hpr ⟨le_refl 0, zero_le_one⟩)

/-- C3 witness: a concrete successful run with confidence 1. -/
theorem predictImage_confidence_in_unit_interval_witness :
    0 ≤ (⟨"肺炎", 1, [], JsValue.str "肺部病变", []⟩ : Prediction).confidence ∧
      (⟨"肺炎", 1, [], JsValue.str "肺部病变", []⟩ : Prediction).confidence ≤ 1 :=
  predictImage_confidence_in_unit_interval
    [⟨some "肺炎", some 1, none, none, none, none⟩] _
    (by
      intro r hr
      simp only [List.mem_singleton] at hr
      subst hr
      constructor
      · intro q hq
        cases hq
        exact ⟨zero_le_one, le_refl 1⟩
      · intro q hq
        cases hq)
    rfl

/-! ## C8 — diagnosis_type from the category lookup -/

/-- A successful association-list lookup returns one of the stored
values. -/
theorem lookup_mem_values {l : List (String × String)} {k v : String}
    (h : l.lookup k = some v) : ∃ p ∈ l, p.2 = v := by
  induction l with
  | nil => cases h
  | cons p t ih =>
    by_cases hk : (k == p.1) = true
    · refine ⟨p, List.mem_cons_self p t, ?_⟩
      simp only [List.lookup, hk] at h
      exact Option.some.inj h
    · have hk' : (k == p.1) = false := by
        cases hb : (k == p.1)
        · rfl
        · exact absurd hb hk
      simp only [List.lookup, hk'] at h
      obtain ⟨q, hq, hv⟩ := ih h
      exact ⟨q, List.mem_cons_of_mem p hq, hv⟩

/-- C8 counterexample: the label `"toString"` is not a key of the fixed
table, yet the lookup does not return the default category — JavaScript
property access finds the inherited, truthy `Object.prototype.toString`,
which short-circuits `|| '其他病变'`. -/
theorem category_lookup_prototype_leak :
    (∀ pr ∈ categories, pr.1 ≠ "toString") ∧
      getCategoryByClass "toString" = JsValue.inherited "toString" ∧
      getCategoryByClass "toString" ≠ JsValue.str "其他病变" := by
  decide

/-- C8 as amended: when the external classifier supplies no category
field, the `diagnosis_type` of a successful prediction is
`getCategoryByClass` of the predicted label; a label in the fixed table
maps to its category; a label that is neither a table key nor the name
of an inherited `Object.prototype` member maps to the default
`"其他病变"`; but a label naming an inherited member (such as
`"toString"` or `"constructor"`) yields that member instead of the
default. -/
theorem diagnosis_type_lookup_amended :
    (∀ (rs : List RawResult) (r : RawResult) (pc : String) (p : Prediction),
      rs.getLast? = some r → r.predicted_class = some pc → r.category = none →
      predictImage (Except.ok rs) = Except.ok p →
      p.diagnosis_type = getCategoryByClass pc) ∧
    (∀ lab cat : String, categories.lookup lab = some cat →
      getCategoryByClass lab = JsValue.str cat) ∧
    (∀ lab : String, (∀ pr ∈ categories, pr.1 ≠ lab) →
      lab ∉ objectPrototypeKeys →
      getCategoryByClass lab = JsValue.str "其他病变") ∧
    (∀ lab : String, (∀ pr ∈ categories, pr.1 ≠ lab) →
      lab ∈ objectPrototypeKeys →
      getCategoryByClass lab = JsValue.inherited lab) := by
  refine ⟨?_, ?_, ?_, ?_⟩
  · intro rs r pc p hlast hpc hcat hok
    simp only [predictImage, hlast, hpc] at hok
    by_cases hemp : pc = ""
    · simp only [if_pos hemp] at hok
      exact Except.noConfusion hok
    · simp only [if_neg hemp, Except.ok.injEq] at hok
      rw [← hok]
      simp [jsValOr, hcat]
  · intro lab cat hl
    have hne : cat ≠ "" := by
      obtain ⟨p, hp, hv⟩ := lookup_mem_values hl
      have : ∀ q ∈ categories, q.2 ≠ "" := by decide
      exact hv ▸ this p hp
    unfold getCategoryByClass objectGet
    rw [hl]
    simp [hne]
  · intro lab hkeys hproto
    unfold getCategoryByClass objectGet
    rw [lookup_eq_none_of_forall hkeys, if_neg hproto]
  · intro lab hkeys hproto
    unfold getCategoryByClass objectGet
    rw [lookup_eq_none_of_forall hkeys, if_pos hproto]

/-- C8 witness: a table label maps to its category, an unknown ordinary
label maps to the default, and `"constructor"` leaks the inherited
member — each through the amended theorem, plus the `predictImage`
plumbing at a concrete run. -/
theorem diagnosis_type_lookup_amended_witness :
    (⟨"肺炎", 1, [], JsValue.str "肺部病变", []⟩ : Prediction).diagnosis_type
        = getCategoryByClass "肺炎" ∧
      getCategoryByClass "肺炎" = JsValue.str "肺部病变" ∧
      getCategoryByClass "某未知病" = JsValue.str "其他病变" ∧
      getCategoryByClass "constructor" = JsValue.inherited "constructor" :=
  ⟨diagnosis_type_lookup_amended.1
      [⟨some "肺炎", some 1, none, none, none, none⟩] _ "肺炎" _
      rfl rfl rfl rfl,
    diagnosis_type_lookup_amended.2.1 "肺炎" "肺部病变" rfl,
    diagnosis_type_lookup_amended.2.2.1 "某未知病" (by decide) (by decide),
    diagnosis_type_lookup_amended.2.2.2 "constructor" (by decide) (by decide)⟩

/-! ## C9 — registration takes the role from the request body -/

/-- C9: the register handler takes the new account's role directly from
the request body, defaulting to `'forensic'` only when the field is
absent, with no restriction on its value; in particular a request with
`role = "admin"` creates an admin account. -/
theorem register_role_unrestricted :
    (∀ (body : RegisterBody) (taken : Bool) (newId : Nat) (u : UserRow),
      (registerHandler body taken newId).2 = some u →
      u.role = body.role.getD "forensic") ∧
    registerHandler ⟨some "attacker", some "pw123456", some "某人", some "admin"⟩
        false 3
      = (200, some ⟨3, "attacker", "某人", "admin"⟩) := by
  constructor
  · intro body taken newId u hu
    unfold registerHandler at hu
    split at hu
    · cases hu
    · split at hu
      · cases hu
      · cases hu
        rfl
  · rfl

/-- C9 witness: the created admin account's role is exactly the
body-supplied role. -/
theorem register_role_unrestricted_witness :
    (⟨3, "attacker", "某人", "admin"⟩ : UserRow).role
      = (some "admin" : Option String).getD "forensic" :=
  register_role_unrestricted.1
    ⟨some "attacker", some "pw123456", some "某人", some "admin"⟩ false 3 _
    (by decide)

/-! ## C4 — role-based listing -/

/-- Sorting newest-first permutes its input. -/
theorem sortNewest_perm (key : α → Nat) (l : List α) :
    (sortNewest key l).Perm l :=
  List.perm_insertionSort _ l

/-- Sorting newest-first sorts by `byNewest`. -/
theorem sortNewest_sorted (key : α → Nat) (l : List α) :
    List.Sorted (byNewest key) (sortNewest key l) :=
  List.sorted_insertionSort _ l

/-- The admin join projects back to exactly the diagnosis rows when every
row's submitter exists in the users table. -/
theorem map_fst_filterMap_join (diagnoses : List DiagnosisRow)
    (users : List UserRow)
    (h : ∀ d ∈ diagnoses, ∃ u ∈ users, u.id = d.user_id) :
    (diagnoses.filterMap (fun d =>
        (users.find? (fun u => u.id == d.user_id)).map
          (fun u => (d, some u.name)))).map Prod.fst = diagnoses := by
  induction diagnoses with
  | nil => rfl
  | cons d t ih =>
    obtain ⟨u, hu, hid⟩ := h d (List.mem_cons_self d t)
    have hsome : (users.find? (fun u => u.id == d.user_id)).isSome := by
      rw [List.find?_isSome]
      exact ⟨u, hu, beq_iff_eq.mpr hid⟩
    obtain ⟨v, hv⟩ := Option.isSome_iff_exists.mp hsome
    have ht := ih (fun d' hd' => h d' (List.mem_cons_of_mem d hd'))
    simp [List.filterMap_cons, hv, ht]

/-- C4: for a non-admin role, `getDiagnoses` returns exactly (a
permutation of) the records with `user_id = userId`, with no display
name attached; for the admin role and a users table containing every
submitter, it returns all records, each carrying the submitting user's
display name; in both cases the list is sorted newest-first by
`created_at`. -/
theorem getDiagnoses_role_visibility
    (userId : Nat) (role : String) (diagnoses : List DiagnosisRow)
    (users : List UserRow) :
    (role ≠ "admin" →
      ((getDiagnoses userId role diagnoses users).map Prod.fst).Perm
          (diagnoses.filter (fun d => d.user_id == userId)) ∧
      (∀ p ∈ getDiagnoses userId role diagnoses users, p.2 = none) ∧
      List.Sorted (byNewest (fun p => p.1.created_at))
        (getDiagnoses userId role diagnoses users)) ∧
    (role = "admin" →
      (∀ d ∈ diagnoses, ∃ u ∈ users, u.id = d.user_id) →
      ((getDiagnoses userId role diagnoses users).map Prod.fst).Perm diagnoses ∧
      (∀ p ∈ getDiagnoses userId role diagnoses users,
        ∃ u ∈ users, u.id = p.1.user_id ∧ p.2 = some u.name) ∧
      List.Sorted (byNewest (fun p => p.1.created_at))
        (getDiagnoses userId role diagnoses users)) := by
  constructor
  · intro hrole
    unfold getDiagnoses
    rw [if_neg hrole]
    refine ⟨?_, ?_, sortNewest_sorted _ _⟩
    · have h1 := (sortNewest_perm (fun p : DiagnosisRow × Option String => p.1.created_at)
        ((diagnoses.filter (fun d => d.user_id == userId)).map
          (fun d => (d, none)))).map Prod.fst
      have h2 : ((diagnoses.filter (fun d => d.user_id == userId)).map
          (fun d => (d, (none : Option String)))).map Prod.fst
          = diagnoses.filter (fun d => d.user_id == userId) := by
        rw [List.map_map]
        exact List.map_id _
      rw [h2] at h1
      exact h1
    · intro p hp
      have : p ∈ (diagnoses.filter (fun d => d.user_id == userId)).map
          (fun d => (d, (none : Option String))) :=
        (sortNewest_perm _ _).mem_iff.mp hp
      obtain ⟨d, _, hd⟩ := List.mem_map.mp this
      rw [← hd]
  · intro hrole husers
    unfold getDiagnoses
    rw [if_pos hrole]
    refine ⟨?_, ?_, sortNewest_sorted _ _⟩
    · have h1 := (sortNewest_perm (fun p : DiagnosisRow × Option String => p.1.created_at)
        (diagnoses.filterMap (fun d =>
          (users.find? (fun u => u.id == d.user_id)).map
            (fun u => (d, some u.name))))).map Prod.fst
      rw [map_fst_filterMap_join diagnoses users husers] at h1
      exact h1
    · intro p hp
      have hp' : p ∈ diagnoses.filterMap (fun d =>
          (users.find? (fun u => u.id == d.user_id)).map
            (fun u => (d, some u.name))) :=
        (sortNewest_perm _ _).mem_iff.mp hp
      obtain ⟨d, _, hd⟩ := List.mem_filterMap.mp hp'
      obtain ⟨u, hu, hmap⟩ := Option.map_eq_some'.mp hd
      refine ⟨u, List.mem_of_find?_eq_some hu, ?_, ?_⟩
      · have := List.find?_some hu
        have hid : u.id = d.user_id := by simpa using this
        rw [← hmap]
        exact hid
      · rw [← hmap]

/-- C4 witness: admin listing over one record and its submitting user. -/
theorem getDiagnoses_role_visibility_witness :
    ((getDiagnoses 1 "admin" [sampleDiagnosis] [sampleUser]).map Prod.fst).Perm
        [sampleDiagnosis] ∧
      (∀ p ∈ getDiagnoses 1 "admin" [sampleDiagnosis] [sampleUser],
        ∃ u ∈ [sampleUser], u.id = p.1.user_id ∧ p.2 = some u.name) ∧
      List.Sorted (byNewest (fun p => p.1.created_at))
        (getDiagnoses 1 "admin" [sampleDiagnosis] [sampleUser]) :=
  (getDiagnoses_role_visibility 1 "admin" [sampleDiagnosis] [sampleUser]).2 rfl
    (by
      intro d hd
      refine ⟨sampleUser, List.mem_singleton.mpr rfl, ?_⟩
      simp only [List.mem_singleton] at hd
      rw [hd]
      rfl)

/-! ## C1 — no partial state on failing requests -/

/-- C1: on any failing request, no partial state is persisted.  If the
classifier invocation rejects, the predict route answers 500 and leaves
the state (in particular the diagnoses table) untouched; if report
generation fails, or the requested `report_type` is invalid, the report
route leaves the state (in particular the reports table and the report
files) untouched. -/
theorem no_partial_state_on_failure :
    (∀ (st : St) (userId : Nat) (f : StagedFile)
        (patient_name patient_id notes : Option String) (now : Nat)
        (raw : Except String (List RawResult)) (e : String),
      predictImage raw = Except.error e →
      predictRoute st userId (some f) patient_name patient_id notes now raw
        = (500, st)) ∧
    (∀ (st : St) (userId : Nat) (role : String) (reqId : Nat)
        (report_type : Option String) (now : Nat) (e : String),
      (reportRoute st userId role reqId report_type now
          (Except.error e)).2 = st) ∧
    (∀ (st : St) (userId : Nat) (role : String) (reqId : Nat) (rt : String)
        (now : Nat) (gen : Except String Unit),
      rt ≠ "pdf" → rt ≠ "word" →
      (reportRoute st userId role reqId (some rt) now gen).2 = st) := by
  refine ⟨?_, ?_, ?_⟩
  · intro st userId f patient_name patient_id notes now raw e herr
    simp [predictRoute, herr]
  · intro st userId role reqId report_type now e
    cases hfind : getDiagnosisById reqId st.diagnoses with
    | none => simp [reportRoute, hfind]
    | some d =>
      by_cases hperm : d.user_id ≠ userId ∧ role ≠ "admin"
      · simp [reportRoute, hfind, hperm]
      · cases hparse : jsonParseString d.prediction_result with
        | none => simp [reportRoute, hfind, hperm, hparse]
        | some lab =>
          by_cases hpdf : report_type = some "pdf"
          · simp [reportRoute, hfind, hperm, hparse, hpdf]
          · by_cases hword : report_type = some "word"
            · simp [reportRoute, hfind, hperm, hparse, hpdf, hword]
            · simp [reportRoute, hfind, hperm, hparse, hpdf, hword]
  · intro st userId role reqId rt now gen hpdf hword
    cases hfind : getDiagnosisById reqId st.diagnoses with
    | none => simp [reportRoute, hfind]
    | some d =>
      by_cases hperm : d.user_id ≠ userId ∧ role ≠ "admin"
      · simp [reportRoute, hfind, hperm]
      · cases hparse : jsonParseString d.prediction_result with
        | none => simp [reportRoute, hfind, hperm, hparse]
        | some lab => simp [reportRoute, hfind, hperm, hparse, hpdf, hword]

/-- C1 witness: a rejected subprocess leaves the sample state unchanged
with a 500, and a failed generation leaves it unchanged. -/
theorem no_partial_state_on_failure_witness :
    predictRoute sampleSt 1 (some ⟨"uploads/images/y.png"⟩) none none none 7
        (Except.error "spawn python ENOENT") = (500, sampleSt) ∧
      (reportRoute sampleSt 1 "forensic" 1 (some "pdf") 7
          (Except.error "EACCES")).2 = sampleSt :=
  ⟨no_partial_state_on_failure.1 sampleSt 1 ⟨"uploads/images/y.png"⟩ none none
      none 7 (Except.error "spawn python ENOENT") _ rfl,
    no_partial_state_on_failure.2.1 sampleSt 1 "forensic" 1 (some "pdf") 7
      "EACCES"⟩

/-! ## C5 — invalid report_type always answers 400 and persists nothing -/

/-- C5: for a request whose `report_type` is neither `"pdf"` nor
`"word"`, on an existing record the caller may access (and whose stored
prediction result parses back, as every record written by
`createDiagnosis` does), the report route returns 400 and the state —
reports table and report files alike — is unchanged. -/
theorem invalid_report_type_rejected
    (st : St) (userId : Nat) (role : String) (reqId : Nat) (rt : String)
    (now : Nat) (gen : Except String Unit) (d : DiagnosisRow) (lab : String)
    (hfind : getDiagnosisById reqId st.diagnoses = some d)
    (hperm : d.user_id = userId ∨ role = "admin")
    (hparse : jsonParseString d.prediction_result = some lab)
    (hpdf : rt ≠ "pdf") (hword : rt ≠ "word") :
    reportRoute st userId role reqId (some rt) now gen = (400, st) := by
  have hp : ¬ (d.user_id ≠ userId ∧ role ≠ "admin") := by
    rcases hperm with h | h
    · exact fun hc => hc.1 h
    · exact fun hc => hc.2 h
  simp [reportRoute, hfind, hp, hparse, hpdf, hword]

/-- C5 witness: requesting an `"html"` report on the sample record. -/
theorem invalid_report_type_rejected_witness :
    reportRoute sampleSt 1 "forensic" 1 (some "html") 9 (Except.ok ())
      = (400, sampleSt) :=
  invalid_report_type_rejected sampleSt 1 "forensic" 1 "html" 9 (Except.ok ())
    sampleDiagnosis "肺炎" rfl (Or.inl rfl) rfl
    (by decide) (by decide)

/-! ## C2 — upload acceptance -/

/-- `takeWhile` runs through a satisfying block up to a failing head. -/
theorem takeWhile_append_cons {p : Char → Bool} {l : Str} {c : Char} {t : Str}
    (hl : ∀ x ∈ l, p x) (hc : p c = false) :
    (l ++ c :: t).takeWhile p = l := by
  induction l with
  | nil => simp [List.takeWhile_cons, hc]
  | cons a l ih =>
    have ha : p a = true := hl a (List.mem_cons_self a l)
    simp [List.takeWhile_cons, ha,
      ih (fun x hx => hl x (List.mem_cons_of_mem a hx))]

/-- `takeWhile` keeps an all-satisfying list whole. -/
theorem takeWhile_of_all {p : Char → Bool} {l : Str}
    (hl : ∀ x ∈ l, p x) : l.takeWhile p = l := by
  induction l with
  | nil => rfl
  | cons a l ih =>
    have ha : p a = true := hl a (List.mem_cons_self a l)
    simp [List.takeWhile_cons, ha,
      ih (fun x hx => hl x (List.mem_cons_of_mem a hx))]

/-- A dot-free name has no extension. -/
theorem extname_dotfree {u : Str} (hd : '.' ∉ u) :
    extname u = [] := by
  unfold extname
  have hall : ∀ x ∈ u.reverse, (fun c => decide (c ≠ '.')) x = true := by
    intro x hx
    simp only [decide_eq_true_eq]
    exact fun he => hd (he ▸ List.mem_reverse.mp hx)
  rw [takeWhile_of_all hall]
  rw [if_neg]
  simp

/-- The extension of a name ending in `.` followed by a dot-free suffix
is exactly that suffix. -/
theorem extname_append_dot {u rest : Str} (hn : u ≠ []) (hr : '.' ∉ rest) :
    extname (u ++ '.' :: rest) = '.' :: rest := by
  unfold extname
  have hrev : (u ++ '.' :: rest).reverse = rest.reverse ++ '.' :: u.reverse := by
    rw [List.reverse_append, List.reverse_cons, List.append_assoc]
    rfl
  have hall : ∀ x ∈ rest.reverse, (fun c => decide (c ≠ '.')) x = true := by
    intro x hx
    simp only [decide_eq_true_eq]
    exact fun he => hr (he ▸ List.mem_reverse.mp hx)
  rw [hrev, takeWhile_append_cons hall (by simp)]
  rw [if_pos]
  · rw [List.reverse_reverse]
  · have hu : 0 < u.length := List.length_pos.mpr hn
    simp only [List.length_reverse, List.length_append, List.length_cons]
    omega

/-- C2 counterexample: the file `a.xjpeg` with MIME type `fake/xjpeg`
(1 byte) is accepted by the upload middleware although neither its
extension nor its MIME type belongs to the fixed raster-image set — the
regex `/jpeg|jpg|png|tiff|bmp/` is unanchored, so any substring match
passes. -/
theorem upload_accept_beyond_fixed_set :
    acceptUpload "a.xjpeg".data "fake/xjpeg".data 1 = true ∧
      ((extname "a.xjpeg".data).map Char.toLower) ∉ specAllowedExts ∧
      "fake/xjpeg".data ∉ specAllowedMimes := by
  decide

/-- C2 as amended: acceptance requires only a substring match of one of
`jpeg|jpg|png|tiff|bmp` in the lower-cased extension and in the MIME
type, so (i) every file whose extension and MIME type lie in the fixed
raster set and whose size is within 10 MiB is accepted, (ii) every
accepted file is within 10 MiB, (iii) the stored random name preserves
the original extension, and (iv) a rejected upload leaves the upload
directory unchanged — but acceptance is strictly wider than the fixed
set (see the counterexample). -/
theorem upload_accept_amended :
    (∀ (name mime : Str) (size : Nat),
      ((extname name).map Char.toLower) ∈ specAllowedExts →
      mime ∈ specAllowedMimes → size ≤ maxFileSize →
      acceptUpload name mime size = true) ∧
    (∀ (name mime : Str) (size : Nat),
      acceptUpload name mime size = true → size ≤ maxFileSize) ∧
    (∀ (uuid name : Str), uuid ≠ [] → '.' ∉ uuid →
      extname (storedName uuid name) = extname name) ∧
    (∀ (dir : List Str) (uuid name mime : Str) (size : Nat),
      acceptUpload name mime size = false →
      uploadStep dir uuid name mime size = dir) := by
  refine ⟨?_, ?_, ?_, ?_⟩
  · intro name mime size hext hmime hsize
    unfold acceptUpload fileFilterOk
    have h1 : allowedTest ((extname name).map Char.toLower) = true := by
      simp only [specAllowedExts, List.mem_cons, List.mem_singleton,
        List.not_mem_nil, or_false] at hext
      rcases hext with h | h | h | h | h <;> rw [h] <;> decide
    have h2 : allowedTest mime = true := by
      simp only [specAllowedMimes, List.mem_cons, List.mem_singleton,
        List.not_mem_nil, or_false] at hmime
      rcases hmime with h | h | h | h | h <;> rw [h] <;> decide
    simp [h1, h2, hsize]
  · intro name mime size hacc
    unfold acceptUpload at hacc
    have := (Bool.and_eq_true _ _).mp hacc
    simpa using this.2
  · intro uuid name hn hd
    unfold storedName
    rcases em (∃ rest, extname name = '.' :: rest ∧ '.' ∉ rest) with ⟨rest, hr, hdr⟩ | hno
    · rw [hr, extname_append_dot hn hdr]
    · have hempty : extname name = [] := by
        unfold extname
        rw [if_neg]
        intro hlt
        apply hno
        refine ⟨(name.reverse.takeWhile (fun c => decide (c ≠ '.'))).reverse, ?_, ?_⟩
        · unfold extname
          rw [if_pos hlt]
        · intro hmem
          have := List.mem_takeWhile_imp (List.mem_reverse.mp hmem)
          simp at this
      rw [hempty, List.append_nil, extname_dotfree hd]
  · intro dir uuid name mime size hrej
    unfold uploadStep
    rw [hrej]
    rfl

/-- C2 witness: a PNG upload within the size limit is accepted, the
stored name keeps the extension, and a rejected text file leaves the
upload directory unchanged. -/
theorem upload_accept_amended_witness :
    acceptUpload "b.PNG".data "image/png".data 123 = true ∧
      extname (storedName "u1".data "a.jpg".data) = extname "a.jpg".data ∧
      uploadStep [] "u1".data "a.txt".data "text/plain".data 1 = [] :=
  ⟨upload_accept_amended.1 "b.PNG".data "image/png".data 123 (by decide)
      (by decide) (by decide),
    upload_accept_amended.2.2.1 "u1".data "a.jpg".data (by decide) (by decide),
    upload_accept_amended.2.2.2 [] "u1".data "a.txt".data "text/plain".data 1
      (by decide)⟩

/-! ## C6 — report file names -/

/-- `digitVal` inverts `digitChar` on single digits. -/
theorem digitVal_digitChar (d : Nat) (h : d < 10) :
    digitVal (digitChar d) = d := by
  interval_cases d <;> decide

/-- `digitChar` always yields a decimal digit character. -/
theorem digitChar_isDigit (d : Nat) : (digitChar d).isDigit = true := by
  unfold digitChar
  split_ifs <;> decide

/-- Every character of a decimal rendering is a digit. -/
theorem natStr_all_digits (n : Nat) : ∀ c ∈ natStr n, c.isDigit = true := by
  induction n using Nat.strong_induction_on with
  | _ n ih =>
    intro c hc
    rw [natStr] at hc
    split at hc
    · simp only [List.mem_singleton] at hc
      rw [hc]
      exact digitChar_isDigit _
    · rcases List.mem_append.mp hc with h | h
      · exact ih (n / 10) (Nat.div_lt_self (by omega) (by omega)) c h
      · simp only [List.mem_singleton] at h
        rw [h]
        exact digitChar_isDigit _

/-- Reading a decimal rendering back gives the number. -/
theorem digitsVal_natStr (n : Nat) : digitsVal (natStr n) = n := by
  induction n using Nat.strong_induction_on with
  | _ n ih =>
    rw [natStr]
    split
    · rename_i h10
      simp [digitsVal, digitVal_digitChar n h10]
    · rename_i h10
      have hdiv : n / 10 < n := Nat.div_lt_self (by omega) (by omega)
      have hmod : n % 10 < 10 := Nat.mod_lt n (by omega)
      unfold digitsVal
      rw [List.foldl_append]
      have hih : digitsVal (natStr (n / 10)) = n / 10 := ih (n / 10) hdiv
      unfold digitsVal at hih
      rw [hih]
      show 10 * (n / 10) + digitVal (digitChar (n % 10)) = n
      rw [digitVal_digitChar (n % 10) hmod]
      omega

/-- Decimal renderings are injective. -/
theorem natStr_injective {m n : Nat} (h : natStr m = natStr n) : m = n := by
  have := congrArg digitsVal h
  rwa [digitsVal_natStr, digitsVal_natStr] at this

/-- Splitting two equal lists at an `'_'` separator that cannot occur in
their digit-only heads. -/
theorem digits_split {xs ys b d : Str}
    (hx : ∀ c ∈ xs, c.isDigit = true) (hy : ∀ c ∈ ys, c.isDigit = true)
    (h : xs ++ '_' :: b = ys ++ '_' :: d) : xs = ys ∧ b = d := by
  induction xs generalizing ys with
  | nil =>
    cases ys with
    | nil => simpa using h
    | cons y t =>
      exfalso
      simp only [List.nil_append, List.cons_append, List.cons.injEq] at h
      have hyd : y.isDigit = true := hy y (List.mem_cons_self y t)
      rw [← h.1] at hyd
      exact absurd hyd (by decide)
  | cons x t ih =>
    cases ys with
    | nil =>
      exfalso
      simp only [List.cons_append, List.nil_append, List.cons.injEq] at h
      have hxd : x.isDigit = true := hx x (List.mem_cons_self x t)
      rw [h.1] at hxd
      exact absurd hxd (by decide)
    | cons y u =>
      simp only [List.cons_append, List.cons.injEq] at h
      obtain ⟨hxy, hrest⟩ := h
      have := ih (fun c hc => hx c (List.mem_cons_of_mem x hc))
        (fun c hc => hy c (List.mem_cons_of_mem y hc)) hrest
      exact ⟨by rw [hxy, this.1], this.2⟩

/-- Report file names agree exactly when kind, diagnosis id and
timestamp agree. -/
theorem reportFilenameRaw_inj (k1 k2 : ReportKind) (i1 i2 t1 t2 : Nat) :
    reportFilenameRaw k1 i1 t1 = reportFilenameRaw k2 i2 t2 ↔
      (k1 = k2 ∧ i1 = i2 ∧ t1 = t2) := by
  constructor
  · intro h
    unfold reportFilenameRaw at h
    rw [List.append_assoc, List.append_assoc] at h
    have h1 := List.append_cancel_left h
    obtain ⟨hid, hrest⟩ := digits_split (natStr_all_digits i1)
      (natStr_all_digits i2) h1
    have hi : i1 = i2 := natStr_injective hid
    have hk : k1 = k2 := by
      cases k1 <;> cases k2
      · rfl
      · exfalso
        have hr := congrArg List.reverse hrest
        simp only [List.reverse_append] at hr
        have e1 : (kindExt ReportKind.pdf).reverse = ['f', 'd', 'p', '.'] := by
          decide
        have e2 : (kindExt ReportKind.word).reverse = ['x', 'c', 'o', 'd', '.'] := by
          decide
        rw [e1, e2] at hr
        have := congrArg List.head? hr
        simp at this
      · exfalso
        have hr := congrArg List.reverse hrest
        simp only [List.reverse_append] at hr
        have e1 : (kindExt ReportKind.pdf).reverse = ['f', 'd', 'p', '.'] := by
          decide
        have e2 : (kindExt ReportKind.word).reverse = ['x', 'c', 'o', 'd', '.'] := by
          decide
        rw [e1, e2] at hr
        have := congrArg List.head? hr
        simp at this
      · rfl
    subst hk
    have ht : t1 = t2 := natStr_injective (List.append_cancel_right hrest)
    exact ⟨rfl, hi, ht⟩
  · rintro ⟨rfl, rfl, rfl⟩
    rfl

/-- C6 counterexample: two distinct generation events — same diagnosis
id, same kind, same `Date.now()` millisecond — produce the same output
file name, so the second generation overwrites the first file; naming is
not collision-resistant. -/
theorem report_filename_collision :
    (⟨0, ReportKind.pdf, 1, 1000⟩ : GenEvent) ≠ ⟨1, ReportKind.pdf, 1, 1000⟩ ∧
      reportFilename ⟨0, ReportKind.pdf, 1, 1000⟩
        = reportFilename ⟨1, ReportKind.pdf, 1, 1000⟩ :=
  ⟨by decide, rfl⟩

/-- C6 as amended: two report generations produce distinct file names iff
they differ in kind, diagnosis id, or `Date.now()` millisecond.  Across
kinds names always differ (different extensions); for the same kind and
record, generations in distinct milliseconds differ; but two same-kind
generations for the same record within one millisecond collide and the
file is overwritten. -/
theorem report_filename_distinct_iff (e1 e2 : GenEvent) :
    reportFilename e1 = reportFilename e2 ↔
      (e1.kind = e2.kind ∧ e1.diagId = e2.diagId ∧ e1.now = e2.now) :=
  reportFilenameRaw_inj e1.kind e2.kind e1.diagId e2.diagId e1.now e2.now

/-! ## C7 — PDF and Word layouts -/

/-- C7 counterexample: for a record without a note, the PDF renderer
omits the `医师备注` section while the Word renderer always emits it
(with `'无'`), so the two documents do not share the same section
structure and field set. -/
theorem report_layout_mismatch_on_absent_notes :
    sectionHeadings (pdfTextItems sampleReportInput "法医一" (fun _ => []))
      ≠ sectionHeadings (wordTextItems sampleReportInput "法医一" (fun _ => [])) := by
  decide

/-- C7 as amended: when the record carries a (truthy) note, the PDF and
Word renderers produce the same section-heading structure; when the note
is absent the PDF omits the `医师备注` section while Word keeps it with a
`'无'` body.  In all cases both documents contain the record's primary
label and its confidence formatted with exactly two decimal places
followed by `%`. -/
theorem report_layout_amended (d : ReportInput) (userName : String)
    (fmtDate : Nat → Str) :
    (strTruthy d.notes = true →
      sectionHeadings (pdfTextItems d userName fmtDate)
        = sectionHeadings (wordTextItems d userName fmtDate)) ∧
    (strTruthy d.notes = false →
      sectionHeadings (pdfTextItems d userName fmtDate)
          = ["患者信息".data, "诊断结果".data, "诊断依据".data] ∧
        sectionHeadings (wordTextItems d userName fmtDate)
          = ["患者信息".data, "诊断结果".data, "医师备注".data, "诊断依据".data]) ∧
    (⟨Style.body, "主要诊断: ".data ++ d.prediction_result.data⟩ : Item)
        ∈ pdfTextItems d userName fmtDate ∧
    (⟨Style.body, "主要诊断: ".data ++ d.prediction_result.data⟩ : Item)
        ∈ wordTextItems d userName fmtDate ∧
    (⟨Style.body, "置信度: ".data ++ confidenceText d.confidence⟩ : Item)
        ∈ pdfTextItems d userName fmtDate ∧
    (⟨Style.body, "置信度: ".data ++ confidenceText d.confidence⟩ : Item)
        ∈ wordTextItems d userName fmtDate ∧
    (∃ ip d1 d2, confidenceText d.confidence = ip ++ '.' :: [d1, d2, '%'] ∧
      (∀ c ∈ ip, c.isDigit = true) ∧ d1.isDigit = true ∧ d2.isDigit = true) := by
  refine ⟨?_, ?_, ?_, ?_, ?_, ?_, ?_⟩
  · intro hn
    unfold pdfTextItems sectionHeadings
    rw [hn]
    rfl
  · intro hn
    constructor
    · unfold pdfTextItems sectionHeadings
      rw [hn]
      rfl
    · rfl
  · simp [pdfTextItems]
  · simp [wordTextItems]
  · simp [pdfTextItems]
  · simp [wordTextItems]
  · refine ⟨natStr ((⌊d.confidence * 100 * 100 + 1 / 2⌋).toNat / 100),
      digitChar ((⌊d.confidence * 100 * 100 + 1 / 2⌋).toNat % 100 / 10),
      digitChar ((⌊d.confidence * 100 * 100 + 1 / 2⌋).toNat % 100 % 10),
      ?_, ?_, ?_, ?_⟩
    · simp [confidenceText, toFixed2, List.append_assoc]
    · exact natStr_all_digits _
    · exact digitChar_isDigit _
    · exact digitChar_isDigit _

/-- C7 witness: for the sample record with a note, the two renderers
agree on the section structure. -/
theorem report_layout_amended_witness :
    sectionHeadings (pdfTextItems sampleReportInputNoted "法医一" (fun _ => []))
      = sectionHeadings (wordTextItems sampleReportInputNoted "法医一" (fun _ => [])) :=
  (report_layout_amended sampleReportInputNoted "法医一" (fun _ => [])).1
    (by decide)

/-! ## C10 — the stored label round-trips through JSON -/

/-- `hexVal?` inverts `hexDigit` below 16. -/
theorem hexVal?_hexDigit (n : Nat) (h : n < 16) :
    hexVal? (hexDigit n) = some n := by
  interval_cases n <;> decide

/-- Decoding resumes correctly after one encoded character. -/
theorem decodeBody_encodeChar (c : Char) (rest : Str) :
    decodeBody (encodeChar c ++ rest) = consR c (decodeBody rest) := by
  unfold encodeChar
  split_ifs with h1 h2 h3 h4 h5 h6 h7 h8
  · rw [h1]
    conv_lhs => rw [decodeBody.eq_def]
    simp [escChar?]
  · rw [h2]
    conv_lhs => rw [decodeBody.eq_def]
    simp [escChar?]
  · rw [h3]
    conv_lhs => rw [decodeBody.eq_def]
    simp [escChar?]
  · rw [h4]
    conv_lhs => rw [decodeBody.eq_def]
    simp [escChar?]
  · rw [h5]
    conv_lhs => rw [decodeBody.eq_def]
    simp [escChar?]
  · rw [h6]
    conv_lhs => rw [decodeBody.eq_def]
    simp [escChar?]
  · rw [h7]
    conv_lhs => rw [decodeBody.eq_def]
    simp [escChar?]
  · have hhi : c.toNat / 16 < 16 := by omega
    have hlo : c.toNat % 16 < 16 := Nat.mod_lt _ (by omega)
    have hv : c.toNat / 16 * 16 + c.toNat % 16 = c.toNat := by
      omega
    simp only [List.cons_append, List.nil_append]
    conv_lhs => rw [decodeBody.eq_def]
    simp [show hexVal? '0' = some 0 from by decide, hexVal?_hexDigit _ hhi,
      hexVal?_hexDigit _ hlo, hv, Char.ofNat_toNat]
  · simp only [List.singleton_append]
    conv_lhs => rw [decodeBody.eq_def]
    simp [h1, h2, h8]

/-- Decoding an encoded string consumes it up to the closing quote. -/
theorem decodeBody_encoded (s : Str) (rem : Str) :
    decodeBody (s.flatMap encodeChar ++ '"' :: rem) = some (s, rem) := by
  induction s with
  | nil =>
    rw [List.flatMap_nil, List.nil_append]
    conv_lhs => rw [decodeBody.eq_def]
    simp
  | cons c t ih =>
    rw [List.flatMap_cons, List.append_assoc, decodeBody_encodeChar, ih]
    rfl

/-- `JSON.parse` inverts `JSON.stringify` on every string. -/
theorem jsonParse_jsonStringify (s : String) :
    jsonParseString (jsonStringify s) = some s := by
  have hb : decodeBody (s.data.flatMap encodeChar ++ ['"'])
      = some (s.data, []) := decodeBody_encoded s.data []
  have hstep : jsonParseString (jsonStringify s)
      = (match decodeBody (s.data.flatMap encodeChar ++ ['"']) with
         | some (u, []) => some (String.mk u)
         | _ => none) := rfl
  rw [hstep, hb]

/-- C10: the classification label round-trips through storage —
`createDiagnosis` stores `JSON.stringify` of the label, `JSON.parse`
recovers exactly the original string, and in particular the fresh row
written by `createDiagnosis` deserializes to exactly the label the
classifier produced. -/
theorem prediction_label_roundtrip :
    (∀ s : String, jsonParseString (jsonStringify s) = some s) ∧
    (∀ (st : St) (data : DiagnosisData) (now : Nat) (row : DiagnosisRow),
      row ∈ (createDiagnosis st data now).diagnoses → row ∉ st.diagnoses →
      jsonParseString row.prediction_result = some data.prediction_result) := by
  constructor
  · exact jsonParse_jsonStringify
  · intro st data now row hmem hnew
    unfold createDiagnosis at hmem
    simp only [List.mem_append, List.mem_singleton] at hmem
    rcases hmem with h | h
    · exact absurd h hnew
    · rw [h]
      exact jsonParse_jsonStringify data.prediction_result

/-- C10 witness: the row just created from the label `"肺炎"`
deserializes back to `"肺炎"`. -/
theorem prediction_label_roundtrip_witness :
    jsonParseString
        ({ id := 1
           user_id := 1
           patient_name := none
           patient_id := none
           image_path := "p.jpg"
           prediction_result := jsonStringify "肺炎"
           confidence := 1
           diagnosis_type := some "肺部病变"
           notes := none
           created_at := 5 } : DiagnosisRow).prediction_result
      = some "肺炎" :=
  prediction_label_roundtrip.2 emptySt
    { user_id := 1
      patient_name := none
      patient_id := none
      image_path := "p.jpg"
      prediction_result := "肺炎"
      confidence := 1
      diagnosis_type := some "肺部病变"
      notes := none } 5 _ (by simp [createDiagnosis, emptySt, jsNull])
    (by simp [emptySt])

end MindSight
